import Mathlib

/-!
Verification of the bookyard collaborative-filtering recommendation engine
(`backend/app/services/recommendation_service.py`).

Modelling conventions:
* All numeric computation is carried out in exact rational arithmetic (ℚ);
  the source uses IEEE floats, which we model exactly.  Similarity values,
  which involve square roots, are characterised over ℝ by `realSimEntry`,
  and the recommender is analysed for arbitrary rational similarity inputs.
* `User-ID` values are integers in the source; `ISBN` values are strings.
  Both are modelled as naturals carrying their total order (only the order
  is ever used, via the sorted pivot index).
* A pandas cell may be missing (NaN); the only place this is observable in
  the studied code is the `Book-Title` column, guarded by `na=False`, so a
  title is modelled as `Option String`.  The remaining descriptive book
  attributes (author, year, publisher) are carried through the code
  unexamined and are not modelled.
* `np.argsort` (default kind) and pandas `sort_values(ascending=False)`
  are modelled as the stable ascending argsort followed by `[::-1]`.
  Below numpy's introsort partition threshold the real sort is a stable
  insertion sort, so the model is exact there — which covers every
  concrete array evaluated in this file; above the threshold the real
  sort may permute equal keys, so the claim-level theorems below draw
  only tie-order-independent conclusions from the model (for example
  non-increasing scores), except on explicitly small concrete inputs.
-/

namespace Bookyard

/-- An item record from the books table: the identifier and the title.
A missing (NaN) title is `none`. -/
structure Book where
  isbn : Nat
  title : Option String
deriving DecidableEq

/-- A rating row: user identifier, item identifier, numeric rating. -/
structure RatingRow where
  userId : Nat
  isbn : Nat
  rating : Rat
deriving DecidableEq

/-- A rater row from the users table (only the identifier is consumed). -/
structure UserRow where
  userId : Nat
deriving DecidableEq

/-! Title resolution -/

/-- Lower-cased character list of a string (case-insensitive comparison). -/
def lowerChars (s : String) : List Char := s.data.map Char.toLower

/-- Substring occurrence on character lists: some left offset of the
haystack starts with the needle.  The empty needle occurs everywhere. -/
def containsSub (q t : List Char) : Bool :=
  (List.range (t.length + 1)).any (fun i => (t.drop i).take q.length == q)

/-- Case-insensitive substring title match; a missing title never matches
(the source passes `na=False`). -/
def titleMatches (q : String) (b : Book) : Bool :=
  match b.title with
  | none => false
  | some t => containsSub (lowerChars q) (lowerChars t)

/-- First catalog record whose title contains the query
(`matching_books.iloc[0]`). -/
def resolveTitle (q : String) (books : List Book) : Option Book :=
  (books.filter (titleMatches q)).head?

/-! Stable argsort -/

/-- Order on positions of a rational list: by value, ties by position.
Sorting `List.range` by this order is numpy's stable ascending argsort. -/
def keyLe (v : List Rat) (i j : Nat) : Prop :=
  v.getD i 0 < v.getD j 0 ∨ (v.getD i 0 = v.getD j 0 ∧ i ≤ j)

instance (v : List Rat) : DecidableRel (keyLe v) := fun i j => by
  unfold keyLe; infer_instance

instance (v : List Rat) : IsTotal Nat (keyLe v) := by
  constructor
  intro a b
  rcases lt_trichotomy (v.getD a 0) (v.getD b 0) with h | h | h
  · exact Or.inl (Or.inl h)
  · rcases Nat.le_total a b with hab | hab
    · exact Or.inl (Or.inr ⟨h, hab⟩)
    · exact Or.inr (Or.inr ⟨h.symm, hab⟩)
  · exact Or.inr (Or.inl h)

instance (v : List Rat) : IsTrans Nat (keyLe v) := by
  constructor
  intro a b c hab hbc
  rcases hab with h1 | ⟨h1, h1'⟩
  · rcases hbc with h2 | ⟨h2, _⟩
    · exact Or.inl (h1.trans h2)
    · exact Or.inl (h2 ▸ h1)
  · rcases hbc with h2 | ⟨h2, h2'⟩
    · exact Or.inl (h1 ▸ h2)
    · exact Or.inr ⟨h1.trans h2, h1'.trans h2'⟩

instance (v : List Rat) : IsAntisymm Nat (keyLe v) := by
  constructor
  intro a b hab hba
  rcases hab with h1 | ⟨h1, h1'⟩
  · rcases hba with h2 | ⟨h2, _⟩
    · exact absurd (h1.trans h2) (lt_irrefl _)
    · exact absurd h1 (h2 ▸ lt_irrefl _)
  · rcases hba with h2 | ⟨_, h2'⟩
    · exact absurd h2 (h1.symm ▸ lt_irrefl _)
    · exact Nat.le_antisymm h1' h2'

/-- Indices of `v` sorted by ascending value, ties in ascending position:
the numpy default-kind argsort, modelled as its stable determinization
(exact below the introsort partition threshold, where numpy runs an
insertion sort). -/
def argsortAsc (v : List Rat) : List Nat :=
  List.insertionSort (keyLe v) (List.range v.length)

/-- numpy `argsort` followed by `[::-1]`. -/
def argsortDesc (v : List Rat) : List Nat := (argsortAsc v).reverse

/-- Distinct values in ascending order (pandas pivot index and columns). -/
def sortedDedup (l : List Nat) : List Nat :=
  (List.insertionSort (fun a b => a ≤ b) l).dedup

/-! The pivot table -/

/-- Ratings of the (user, item) group of the dataset. -/
def groupRatings (ds : List RatingRow) (u i : Nat) : List Rat :=
  (ds.filter (fun t => t.userId == u && t.isbn == i)).map (fun t => t.rating)

/-- Aggregated cell: the default `pivot_table` aggregation is the group
mean; an empty group takes the fill value 0. -/
def cellAgg (ds : List RatingRow) (u i : Nat) : Rat :=
  let g := groupRatings ds u i
  if g.length = 0 then 0 else g.sum / g.length

/-- The user-book matrix: row labels, column labels, and the dense values
(`_user_book_matrix` together with `_ratings_matrix`). -/
structure UBM where
  rowIds : List Nat
  colIds : List Nat
  values : List (List Rat)
deriving DecidableEq

/-- The pandas pivot, `pivot_table(index="User-ID", columns="ISBN",
values="Book-Rating", fill_value=0)`: rows and columns are the sorted distinct identifiers and
each cell aggregates the (user, item) group. -/
def pivotTable (ds : List RatingRow) : UBM :=
  let rows := sortedDedup (ds.map (fun t => t.userId))
  let cols := sortedDedup (ds.map (fun t => t.isbn))
  ⟨rows, cols, rows.map (fun u => cols.map (fun i => cellAgg ds u i))⟩

/-! Normalisation and similarity -/

/-- Mean of the positive entries of a row; 0 when there are none. -/
def rowMean (row : List Rat) : Rat :=
  let pos := row.filter (fun x => 0 < x)
  if pos.length = 0 then 0 else pos.sum / pos.length

/-- Per-user mean vector (`_user_means`). -/
def userMeans (vals : List (List Rat)) : List Rat := vals.map rowMean

/-- Mean-centering: subtract the row mean from the positive entries only. -/
def centerRow (row : List Rat) : List Rat :=
  row.map (fun x => if 0 < x then x - rowMean row else x)

/-- The centered copy of the rating matrix. -/
def centeredMatrix (vals : List (List Rat)) : List (List Rat) := vals.map centerRow

/-- Dot product of two rows. -/
def dotRows (r1 r2 : List Rat) : Rat := ((r1.zip r2).map (fun p => p.1 * p.2)).sum

/-- Squared Euclidean norm of a row. -/
def sqNormRow (r : List Rat) : Rat := (r.map (fun x => x * x)).sum

/-- The similarity component of a snapshot: either the degenerate 1×1
matrix `[[1.0]]` written when there are fewer than two users, or the
cosine-similarity matrix of a recorded centered matrix. -/
inductive SimState where
  | degenerate
  | cosineOf (c : List (List Rat))
deriving DecidableEq

/-- The row-normalisation divisor used by sklearn `normalize`: the
Euclidean norm, replaced by 1 for an all-zero row. -/
noncomputable def rowDivisor (r : List Rat) : ℝ :=
  if sqNormRow r = 0 then 1 else Real.sqrt ((sqNormRow r : Rat) : ℝ)

/-- Entry (i, j) of `cosine_similarity` of the centered matrix. -/
noncomputable def realSimEntry (c : List (List Rat)) (i j : Nat) : ℝ :=
  ((dotRows (c.getD i []) (c.getD j []) : Rat) : ℝ) /
    (rowDivisor (c.getD i []) * rowDivisor (c.getD j []))

/-- The published similarity values of a snapshot. -/
noncomputable def simValue : SimState → Nat → Nat → ℝ
  | .degenerate, i, j => if i = 0 ∧ j = 0 then 1 else 0
  | .cosineOf c, i, j => realSimEntry c i j

/-! Joining and adaptive filtering -/

/-- Inner joins of the positive ratings with books (on ISBN) and then with
users (on User-ID).  pandas inner merge keeps the left order and repeats a
left row once per matching right row. -/
def joinedDataset (books : List Book) (ratings : List RatingRow)
    (users : List UserRow) : List RatingRow :=
  let pos := ratings.filter (fun r => 0 < r.rating)
  let m1 := pos.flatMap (fun r => (books.filter (fun b => b.isbn == r.isbn)).map (fun _ => r))
  m1.flatMap (fun r => (users.filter (fun u => u.userId == r.userId)).map (fun _ => r))

/-- Number of ratings of a user in a dataset. -/
def countUser (ds : List RatingRow) (u : Nat) : Nat :=
  (ds.filter (fun t => t.userId == u)).length

/-- Number of ratings of an item in a dataset. -/
def countItem (ds : List RatingRow) (i : Nat) : Nat :=
  (ds.filter (fun t => t.isbn == i)).length

/-- Users with at least `minU` ratings (groupby count and threshold). -/
def usersEnough (minU : Nat) (ds : List RatingRow) : List Nat :=
  ((ds.map (fun t => t.userId)).dedup).filter (fun u => minU ≤ countUser ds u)

/-- The rows of the users that meet the threshold. -/
def userFiltered (minU : Nat) (ds : List RatingRow) : List RatingRow :=
  ds.filter (fun t => t.userId ∈ usersEnough minU ds)

/-- Items of the user-filtered subset with at least `minB` ratings. -/
def itemsEnough (minB : Nat) (ds : List RatingRow) : List Nat :=
  ((ds.map (fun t => t.isbn)).dedup).filter (fun i => minB ≤ countItem ds i)

/-- The adaptive density filter: threshold users, then items; when either
threshold empties the set the code falls back to the full `merged_df`. -/
def filterStage (minU minB : Nat) (merged : List RatingRow) : List RatingRow :=
  if usersEnough minU merged = [] then merged
  else
    let f1 := userFiltered minU merged
    if itemsEnough minB f1 = [] then merged
    else f1.filter (fun t => t.isbn ∈ itemsEnough minB f1)

/-- The dataset actually pivoted: the filter-stage result, replaced by the
unfiltered join when it still has fewer than 10 rows. -/
def filteredForMatrix (minU minB : Nat) (merged : List RatingRow) : List RatingRow :=
  let st := filterStage minU minB merged
  if st.length < 10 then merged else st

/-! The engine snapshot and the loader -/

/-- One fully built engine snapshot. -/
structure Snapshot where
  books : List Book
  ubm : UBM
  means : List Rat
  simSt : SimState
deriving DecidableEq

/-- Matrix-construction stages: pivot, means, centering, similarity
(the degenerate one-user similarity when there are fewer than two rows). -/
def buildSnapshotFrom (books : List Book) (ds : List RatingRow) : Snapshot :=
  let ubm := pivotTable ds
  { books := books
    ubm := ubm
    means := userMeans ubm.values
    simSt := if ubm.values.length < 2 then .degenerate
             else .cosineOf (centeredMatrix ubm.values) }

/-- Full load with configurable thresholds (the source hard-codes
`min_user_ratings = 2` and `min_book_ratings = 1`).  `none` is the
`InsufficientSourceData` outcome. -/
def loadSnapshotCfg (minU minB : Nat) (books : List Book)
    (ratings : List RatingRow) (users : List UserRow) : Option Snapshot :=
  let merged := joinedDataset books ratings users
  if merged.length < 10 then none
  else
    let snap := buildSnapshotFrom books (filteredForMatrix minU minB merged)
    if snap.ubm.values.length = 0 ∨ snap.ubm.colIds.length = 0 then none
    else some snap

/-- The loader `load_recommendation_data` with the source's thresholds. -/
def loadSnapshot (books : List Book) (ratings : List RatingRow)
    (users : List UserRow) : Option Snapshot :=
  loadSnapshotCfg 2 1 books ratings users

/-! The loader as a transformer of the module's global state -/

/-- The module-level globals of the service. -/
structure EngineState where
  booksData : Option (List Book)
  ratingsData : Option (List RatingRow)
  usersData : Option (List UserRow)
  mergedFiltered : Option (List RatingRow)
  userBookMatrix : Option UBM
  ratingsMatrix : Option (List (List Rat))
  means : Option (List Rat)
  similarity : Option SimState
deriving DecidableEq

/-- All globals start as `None`. -/
def initialState : EngineState := ⟨none, none, none, none, none, none, none, none⟩

/-- The loader `load_recommendation_data` as a state transformer: the globals are
assigned in program order, so an early `return False` leaves a mixture of
new and old components.  Returns the final state and the success flag. -/
def loadState (st : EngineState) (books : List Book) (ratings : List RatingRow)
    (users : List UserRow) : EngineState × Bool :=
  let st1 := { st with booksData := some books
                       ratingsData := some (ratings.filter (fun r => 0 < r.rating))
                       usersData := some users }
  let merged := joinedDataset books ratings users
  if merged.length < 10 then (st1, false)
  else
    let ds := filteredForMatrix 2 1 merged
    let ubm := pivotTable ds
    let st2 := { st1 with mergedFiltered := some ds
                          userBookMatrix := some ubm
                          ratingsMatrix := some ubm.values }
    if ubm.values.length = 0 ∨ ubm.colIds.length = 0 then (st2, false)
    else
      let st3 := { st2 with
        means := some (userMeans ubm.values)
        similarity := some (if ubm.values.length < 2 then SimState.degenerate
                            else SimState.cosineOf (centeredMatrix ubm.values)) }
      (st3, true)

/-! The recommender -/

/-- Matrix entry by row and column position (0 outside the matrix). -/
def entry (vals : List (List Rat)) (r c : Nat) : Rat := (vals.getD r []).getD c 0

/-- Rows with a positive rating in column `c`
(`_ratings_matrix[:, col] > 0`). -/
def ratersOf (vals : List (List Rat)) (c : Nat) : List Nat :=
  (List.range vals.length).filter (fun r => 0 < entry vals r c)

/-- Accumulator for `argmaxIdx`: current best value, next position,
current best position. -/
def argmaxAux : List Rat → Rat → Nat → Nat → Nat
  | [], _, _, best => best
  | x :: xs, bv, i, best =>
    if bv < x then argmaxAux xs x (i + 1) i else argmaxAux xs bv (i + 1) best

/-- The numpy argmax: position of the first maximal element (0 on empty input). -/
def argmaxIdx : List Rat → Nat
  | [] => 0
  | x :: xs => argmaxAux xs x 1 0

/-- The anchor row: among the raters of column `c`, the first attaining
the highest rating in that column. -/
def queryAnchor (vals : List (List Rat)) (c : Nat) : Nat :=
  let raters := ratersOf vals c
  raters.getD (argmaxIdx (raters.map (fun r => entry vals r c))) 0

/-- The anchor's similarity row with non-positive entries zeroed
(`similarity_scores[similarity_scores <= 0] = 0`). -/
def zeroedSimRow (simRow : Nat → Rat) (n : Nat) : List Rat :=
  (List.range n).map (fun j => if simRow j ≤ 0 then 0 else simRow j)

/-- Positions `[1 : k+1]` of the descending ranking, then keep only the
strictly positive entries. -/
def neighborSelect (zr : List Rat) (k : Nat) : List Nat :=
  (((argsortDesc zr).drop 1).take k).filter (fun j => 0 < zr.getD j 0)

/-- Similarity-weighted average of the neighbours' raw rating rows, with
the weights normalised to sum to 1. -/
def avgScores (vals : List (List Rat)) (nbrs : List Nat) (zr : List Rat)
    (nCols : Nat) : List Rat :=
  let total := (nbrs.map (fun n => zr.getD n 0)).sum
  (List.range nCols).map
    (fun c => (nbrs.map (fun n => zr.getD n 0 / total * entry vals n c)).sum)

/-- Items already rated by the anchor are forced to the sentinel −1. -/
def maskScores (anchorRow : List Rat) (avg : List Rat) : List Rat :=
  (List.range avg.length).map
    (fun c => if 0 < anchorRow.getD c 0 then -1 else avg.getD c 0)

/-- Descending ranking of the masked scores, keep the non-negative ones,
truncate to `topN`. -/
def topIdxs (masked : List Rat) (topN : Nat) : List Nat :=
  ((argsortDesc masked).filter (fun j => 0 ≤ masked.getD j 0)).take topN

/-- pandas `sort_values(ascending=False)`: the ascending argsort of the
scores followed by reversal, with the same stable determinization (and
the same exactness caveat) as `argsortAsc`. -/
def sortPairsDesc (ps : List (Nat × Rat)) : List (Nat × Rat) :=
  (argsortDesc (ps.map (fun p => p.2))).map (fun i => ps.getD i (0, 0))

/-- Join the recommended column identifiers back against the catalog
(kept in catalog order), attach each record's predicted score via
`columns.get_loc`, and sort by score descending. -/
def materialize (books : List Book) (colIds : List Nat) (masked : List Rat)
    (top : List Nat) : List (Nat × Rat) :=
  let isbns := top.map (fun j => colIds.getD j 0)
  let recs := books.filter (fun b => b.isbn ∈ isbns)
  sortPairsDesc (recs.map (fun b => (b.isbn, masked.getD (colIds.indexOf b.isbn) 0)))

/-- The categorized failures of a query. -/
inductive RecError where
  | noMatchingTitle
  | itemNotInMatrix
  | noUsersRatedItem
  | noSimilarUsers
  | noUnratedCandidates
deriving DecidableEq

instance {ε α : Type} [DecidableEq ε] [DecidableEq α] : DecidableEq (Except ε α) :=
  fun a b =>
  match a, b with
  | .error e, .error f =>
    if h : e = f then isTrue (by rw [h]) else isFalse (by intro hh; cases hh; exact h rfl)
  | .ok x, .ok y =>
    if h : x = y then isTrue (by rw [h]) else isFalse (by intro hh; cases hh; exact h rfl)
  | .error _, .ok _ => isFalse (by intro hh; cases hh)
  | .ok _, .error _ => isFalse (by intro hh; cases hh)

/-- The query entry point `get_book_recommendations`: resolve the title, locate the column, pick
the anchor, select neighbours, predict, exclude, rank, materialize.  The
similarity values are passed in as `simM` (the loaded snapshot supplies
`simValue`, whose values the rational results of this file characterise). -/
def getBookRecommendations (books : List Book) (ubm : UBM)
    (simM : Nat → Nat → Rat) (q : String) (k topN : Nat) :
    Except RecError (List (Nat × Rat)) :=
  match resolveTitle q books with
  | none => .error .noMatchingTitle
  | some b =>
    if b.isbn ∈ ubm.colIds then
      let c := ubm.colIds.indexOf b.isbn
      if ratersOf ubm.values c = [] then .error .noUsersRatedItem
      else
        let a := queryAnchor ubm.values c
        let kEff := min k (ubm.values.length - 1)
        let zr := zeroedSimRow (simM a) ubm.values.length
        let nbrs := neighborSelect zr kEff
        if nbrs = [] then .error .noSimilarUsers
        else
          let masked := maskScores (ubm.values.getD a [])
            (avgScores ubm.values nbrs zr ubm.colIds.length)
          let top := topIdxs masked topN
          if top = [] then .error .noUnratedCandidates
          else .ok (materialize books ubm.colIds masked top)
    else .error .itemNotInMatrix

/-- The column the query resolves to (meaningful when `resolveTitle`
succeeds and the isbn is a column label). -/
def queryCol (books : List Book) (ubm : UBM) (q : String) : Nat :=
  match resolveTitle q books with
  | some b => ubm.colIds.indexOf b.isbn
  | none => 0

/-- The masked score vector a successful query ranks, assembled from the
same stages `getBookRecommendations` runs. -/
def queryMasked (books : List Book) (ubm : UBM) (simM : Nat → Nat → Rat)
    (q : String) (k : Nat) : List Rat :=
  let c := queryCol books ubm q
  let a := queryAnchor ubm.values c
  let zr := zeroedSimRow (simM a) ubm.values.length
  let nbrs := neighborSelect zr (min k (ubm.values.length - 1))
  maskScores (ubm.values.getD a []) (avgScores ubm.values nbrs zr ubm.colIds.length)

/-! Concrete datasets used by the witnesses and counterexamples below. -/

/-- Catalog of the spec's concrete scenario: items A, B, C. -/
def books3 : List Book := [⟨0, some "A"⟩, ⟨1, some "B"⟩, ⟨2, some "C"⟩]

/-- Ratings of the spec's concrete scenario:
U1 = 1, U2 = 2, U3 = 3 rate A = 0, B = 1, C = 2. -/
def ratings7 : List RatingRow :=
  [⟨1, 0, 8⟩, ⟨1, 1, 6⟩, ⟨2, 0, 9⟩, ⟨2, 1, 7⟩, ⟨2, 2, 5⟩, ⟨3, 1, 4⟩, ⟨3, 2, 9⟩]

/-- Raters of the spec's concrete scenario. -/
def users3 : List UserRow := [⟨1⟩, ⟨2⟩, ⟨3⟩]

/-- The scenario snapshot, built by the matrix-construction stages from
exactly the seven scenario ratings (which are a fixed point of the density
filter). -/
def snapScenario : Snapshot := buildSnapshotFrom books3 ratings7

/-- The rational value of the scenario's similarity matrix. -/
def simQ3 : List (List Rat) :=
  [[1, 1/2, 1/2], [1/2, 1, -1/2], [1/2, -1/2, 1]]

/-- A ten-rating catalog/rating/rater triple whose load succeeds: user 1
rates items 0, 1, 4; user 2 rates items 0, 2, 3 (items 2 and 3 equally);
users 3 and 4 rate items 5 and 6 in mirrored fashion.  All pairwise
similarities of this snapshot are rational. -/
def booksT : List Book :=
  [⟨0, some "B0"⟩, ⟨1, some "B1"⟩, ⟨2, some "B2"⟩, ⟨3, some "B3"⟩,
   ⟨4, some "B4"⟩, ⟨5, some "B5"⟩, ⟨6, some "B6"⟩]

/-- Ratings of the tie dataset. -/
def ratingsT : List RatingRow :=
  [⟨1, 0, 6⟩, ⟨1, 1, 6⟩, ⟨1, 4, 3⟩,
   ⟨2, 0, 6⟩, ⟨2, 2, 3⟩, ⟨2, 3, 3⟩,
   ⟨3, 5, 7⟩, ⟨3, 6, 3⟩,
   ⟨4, 5, 3⟩, ⟨4, 6, 7⟩]

/-- Raters of the tie dataset. -/
def usersT : List UserRow := [⟨1⟩, ⟨2⟩, ⟨3⟩, ⟨4⟩]

/-- The loaded tie snapshot (the load succeeds, proved below). -/
def snapT : Snapshot := buildSnapshotFrom booksT (joinedDataset booksT ratingsT usersT)

/-- The rational value of the tie snapshot's similarity matrix. -/
def simQT : List (List Rat) :=
  [[1, 1/3, 0, 0], [1/3, 1, 0, 0], [0, 0, 1, -1], [0, 0, -1, 1]]

/-- Lookup of `simQT` as a similarity function. -/
def simFT : Nat → Nat → Rat := fun i j => (simQT.getD i []).getD j 0

/-- A ten-rating dataset on two items where user 1 gives both items the
same rating (so the centered row of user 1 is zero). -/
def booksEq : List Book := [⟨1, some "X"⟩, ⟨2, some "Y"⟩]

/-- Ratings of the equal-ratings dataset. -/
def ratingsEq : List RatingRow :=
  [⟨1, 1, 5⟩, ⟨1, 2, 5⟩, ⟨2, 1, 6⟩, ⟨2, 2, 7⟩, ⟨3, 1, 3⟩, ⟨3, 2, 8⟩,
   ⟨4, 1, 2⟩, ⟨4, 2, 9⟩, ⟨5, 1, 4⟩, ⟨5, 2, 6⟩]

/-- Raters of the equal-ratings dataset. -/
def usersEq : List UserRow := [⟨1⟩, ⟨2⟩, ⟨3⟩, ⟨4⟩, ⟨5⟩]

/-- The loaded equal-ratings snapshot. -/
def snapEq : Snapshot := buildSnapshotFrom booksEq (joinedDataset booksEq ratingsEq usersEq)

/-- Two users with proportional centered rows (8, 6 and 4, 3): their
cosine similarity is exactly 1. -/
def booksPar : List Book := [⟨1, some "P"⟩, ⟨2, some "Q"⟩]

/-- Ratings of the parallel-rows dataset. -/
def ratingsPar : List RatingRow := [⟨1, 1, 8⟩, ⟨1, 2, 6⟩, ⟨2, 1, 4⟩, ⟨2, 2, 3⟩]

/-- The user-book matrix of the parallel-rows dataset. -/
def ubmPar : UBM := pivotTable (joinedDataset booksPar ratingsPar [⟨1⟩, ⟨2⟩])

/-- A catalog whose single record has a missing (NaN) title. -/
def booksNT : List Book := [⟨1, none⟩]

/-- Ten single-rating users of the one NaN-titled item (the user filter
finds no qualifying user and falls back to the full join). -/
def ratingsNT : List RatingRow :=
  [⟨1, 1, 5⟩, ⟨2, 1, 5⟩, ⟨3, 1, 5⟩, ⟨4, 1, 5⟩, ⟨5, 1, 5⟩,
   ⟨6, 1, 5⟩, ⟨7, 1, 5⟩, ⟨8, 1, 5⟩, ⟨9, 1, 5⟩, ⟨10, 1, 5⟩]

/-- Raters of the NaN-title dataset. -/
def usersNT : List UserRow :=
  [⟨1⟩, ⟨2⟩, ⟨3⟩, ⟨4⟩, ⟨5⟩, ⟨6⟩, ⟨7⟩, ⟨8⟩, ⟨9⟩, ⟨10⟩]

/-- The loaded NaN-title snapshot. -/
def snapNT : Snapshot := buildSnapshotFrom booksNT (joinedDataset booksNT ratingsNT usersNT)

/-- First source triple for the state-clobbering scenario: a dataset whose
load succeeds. -/
def booksD1 : List Book := [⟨1, some "X1"⟩, ⟨2, some "X2"⟩]

/-- Ratings of the first state scenario. -/
def ratingsD1 : List RatingRow :=
  [⟨1, 1, 5⟩, ⟨1, 2, 6⟩, ⟨2, 1, 5⟩, ⟨2, 2, 6⟩, ⟨3, 1, 5⟩, ⟨3, 2, 6⟩,
   ⟨4, 1, 5⟩, ⟨4, 2, 6⟩, ⟨5, 1, 5⟩, ⟨5, 2, 6⟩]

/-- Raters of the first state scenario. -/
def usersD1 : List UserRow := [⟨1⟩, ⟨2⟩, ⟨3⟩, ⟨4⟩, ⟨5⟩]

/-- A joined dataset on which the user filter keeps only user 1 but a
five-rating item threshold empties the item set. -/
def mergedC5 : List RatingRow := [⟨1, 1, 5⟩, ⟨1, 2, 6⟩, ⟨2, 3, 7⟩]

/-- A dataset with a duplicated (user, item) pair rated 4 and then 10. -/
def dsDup : List RatingRow := [⟨1, 1, 4⟩, ⟨1, 1, 10⟩]

/-- A dataset whose users first appear in the order 2, 1. -/
def dsOrd : List RatingRow := [⟨2, 7, 3⟩, ⟨1, 7, 4⟩]

/-! Lemmas: the stable argsort -/

theorem argsortAsc_perm (v : List Rat) : List.Perm (argsortAsc v) (List.range v.length) :=
  List.perm_insertionSort _ _

theorem argsortAsc_sorted (v : List Rat) : List.Sorted (keyLe v) (argsortAsc v) :=
  List.sorted_insertionSort _ _

theorem argsortDesc_perm (v : List Rat) : List.Perm (argsortDesc v) (List.range v.length) :=
  (List.reverse_perm _).trans (argsortAsc_perm v)

theorem argsortDesc_nodup (v : List Rat) : (argsortDesc v).Nodup :=
  ((argsortDesc_perm v).nodup_iff).mpr (List.nodup_range _)

theorem mem_argsortDesc {v : List Rat} {i : Nat} : i ∈ argsortDesc v ↔ i < v.length := by
  rw [(argsortDesc_perm v).mem_iff, List.mem_range]

theorem argsortDesc_length (v : List Rat) : (argsortDesc v).length = v.length :=
  (argsortDesc_perm v).length_eq.trans (List.length_range _)

theorem argsortDesc_pairwise (v : List Rat) :
    (argsortDesc v).Pairwise (fun i j => keyLe v j i) :=
  (List.pairwise_reverse).mpr (argsortAsc_sorted v)

/-! Lemmas: getD bookkeeping -/

theorem getD_map_range {α : Type} (f : Nat → α) {n i : Nat} (h : i < n) (d : α) :
    ((List.range n).map f).getD i d = f i := by
  rw [List.getD_eq_getElem _ _ (by simpa using h)]
  simp

theorem map_getD_range {α : Type} (l : List α) (d : α) :
    (List.range l.length).map (fun i => l.getD i d) = l := by
  apply List.ext_getElem
  · simp
  · intro i h1 h2
    simp only [List.getElem_map, List.getElem_range]
    exact List.getD_eq_getElem _ _ h2

theorem getD_map_snd {ps : List (Nat × Rat)} {j : Nat} (h : j < ps.length) :
    (ps.map (fun p => p.2)).getD j 0 = (ps.getD j (0, 0)).2 := by
  rw [List.getD_eq_getElem _ _ (by simpa using h), List.getD_eq_getElem _ _ h]
  simp

theorem getD_default_or_mem {α : Type} (l : List α) (i : Nat) (d : α) :
    l.getD i d = d ∨ l.getD i d ∈ l := by
  by_cases h : i < l.length
  · exact Or.inr (by rw [List.getD_eq_getElem _ _ h]; exact List.getElem_mem h)
  · exact Or.inl (List.getD_eq_default _ _ (le_of_not_lt h))

/-! Lemmas: pairwise bookkeeping -/

theorem pairwise_and_forall {α : Type} {l : List α} {R : α → α → Prop} (P : α → Prop)
    (hp : l.Pairwise R) (hP : ∀ x ∈ l, P x) :
    l.Pairwise (fun a b => P a ∧ P b ∧ R a b) := by
  induction l with
  | nil => simp
  | cons x xs ih =>
    rcases List.pairwise_cons.mp hp with ⟨hx, hxs⟩
    refine List.pairwise_cons.mpr ⟨?_, ih hxs (fun y hy => hP y (List.mem_cons_of_mem _ hy))⟩
    intro y hy
    exact ⟨hP x (List.mem_cons_self _ _), hP y (List.mem_cons_of_mem _ hy), hx y hy⟩

theorem nodup_pairwise_indexOf {l : List Nat} (h : l.Nodup) :
    l.Pairwise (fun a b => l.indexOf a < l.indexOf b) := by
  rw [List.pairwise_iff_get]
  intro i j hij
  rw [List.get_indexOf h, List.get_indexOf h]
  exact hij

/-! Lemmas: the descending pair sort -/

theorem sortPairsDesc_perm (ps : List (Nat × Rat)) : List.Perm (sortPairsDesc ps) ps := by
  unfold sortPairsDesc
  have h1 : List.Perm (argsortDesc (ps.map (fun p => p.2))) (List.range ps.length) := by
    simpa using argsortDesc_perm (ps.map (fun p => p.2))
  exact (h1.map _).trans (by rw [map_getD_range])

theorem sortPairsDesc_length (ps : List (Nat × Rat)) :
    (sortPairsDesc ps).length = ps.length :=
  (sortPairsDesc_perm ps).length_eq

theorem mem_sortPairsDesc {ps : List (Nat × Rat)} {p : Nat × Rat} :
    p ∈ sortPairsDesc ps ↔ p ∈ ps :=
  (sortPairsDesc_perm ps).mem_iff

theorem sortPairsDesc_pairwise (ps : List (Nat × Rat)) :
    (sortPairsDesc ps).Pairwise (fun p q =>
      q.2 < p.2 ∨ (q.2 = p.2 ∧ ∃ i j, j < i ∧ i < ps.length ∧ j < ps.length ∧
        ps.getD i (0, 0) = p ∧ ps.getD j (0, 0) = q)) := by
  unfold sortPairsDesc
  set v := ps.map (fun p => p.2) with hv
  have hlen : v.length = ps.length := by simp [hv]
  have h1 : (argsortDesc v).Pairwise (fun i j => keyLe v j i) := argsortDesc_pairwise v
  have h2 : (argsortDesc v).Pairwise (fun i j => i ≠ j) := argsortDesc_nodup v
  have h3 : ∀ x ∈ argsortDesc v, x < ps.length := by
    intro x hx
    exact hlen ▸ mem_argsortDesc.mp hx
  have h4 := pairwise_and_forall (fun x => x < ps.length) (h1.and h2) h3
  rw [List.pairwise_map]
  refine h4.imp ?_
  rintro i j ⟨hi, hj, hk, hne⟩
  rcases hk with hlt | ⟨heq, hle⟩
  · left
    rwa [getD_map_snd hj, getD_map_snd hi] at hlt
  · right
    rw [getD_map_snd hj, getD_map_snd hi] at heq
    exact ⟨heq, i, j, lt_of_le_of_ne hle (Ne.symm hne), hi, hj, rfl, rfl⟩

/-! Lemmas: sorted dedup and the pivot table -/

theorem sortedDedup_nodup (l : List Nat) : (sortedDedup l).Nodup :=
  List.nodup_dedup _

theorem mem_sortedDedup {l : List Nat} {x : Nat} : x ∈ sortedDedup l ↔ x ∈ l := by
  rw [sortedDedup, List.mem_dedup, List.mem_insertionSort]

theorem sortedDedup_sorted (l : List Nat) : List.Sorted (· ≤ ·) (sortedDedup l) :=
  List.Pairwise.sublist (List.dedup_sublist _) (List.sorted_insertionSort _ l)

theorem pivot_values_length (ds : List RatingRow) :
    (pivotTable ds).values.length = (pivotTable ds).rowIds.length := by
  simp [pivotTable]

theorem pivot_row_length (ds : List RatingRow) {r : Nat}
    (h : r < (pivotTable ds).values.length) :
    ((pivotTable ds).values.getD r []).length = (pivotTable ds).colIds.length := by
  rw [List.getD_eq_getElem _ _ h]
  simp [pivotTable] at h ⊢

theorem pivot_entry (ds : List RatingRow) {r c : Nat}
    (hr : r < (pivotTable ds).rowIds.length) (hc : c < (pivotTable ds).colIds.length) :
    entry (pivotTable ds).values r c
      = cellAgg ds ((pivotTable ds).rowIds.getD r 0) ((pivotTable ds).colIds.getD c 0) := by
  have hr' : r < (pivotTable ds).values.length := by rwa [pivot_values_length]
  rw [entry, List.getD_eq_getElem _ _ hr']
  simp only [pivotTable] at hr hc hr' ⊢
  rw [List.getElem_map]
  rw [List.getD_eq_getElem _ _ (by simpa using hc)]
  rw [List.getElem_map]
  rw [List.getD_eq_getElem _ _ (by simpa using hr), List.getD_eq_getElem _ _ (by simpa using hc)]

theorem groupRatings_pos {ds : List RatingRow} (h : ∀ t ∈ ds, 0 < t.rating)
    (u i : Nat) : ∀ x ∈ groupRatings ds u i, 0 < x := by
  intro x hx
  rcases List.mem_map.mp hx with ⟨t, ht, rfl⟩
  exact h t (List.mem_of_mem_filter ht)

theorem cellAgg_nonneg {ds : List RatingRow} (h : ∀ t ∈ ds, 0 < t.rating)
    (u i : Nat) : 0 ≤ cellAgg ds u i := by
  rw [cellAgg]
  split
  · exact le_refl 0
  · refine div_nonneg ?_ (by positivity)
    exact List.sum_nonneg (fun x hx => le_of_lt (groupRatings_pos h u i x hx))

theorem pivot_entry_nonneg {ds : List RatingRow} (h : ∀ t ∈ ds, 0 < t.rating)
    (r c : Nat) : 0 ≤ entry (pivotTable ds).values r c := by
  by_cases hr : r < (pivotTable ds).rowIds.length
  · by_cases hc : c < (pivotTable ds).colIds.length
    · rw [pivot_entry ds hr hc]
      exact cellAgg_nonneg h _ _
    · have hr2 : r < (pivotTable ds).values.length := by rwa [pivot_values_length]
      have h0 : ((pivotTable ds).values.getD r []).getD c 0 = 0 :=
        List.getD_eq_default _ _ (by rw [pivot_row_length ds hr2]; exact le_of_not_lt hc)
      rw [entry, h0]
  · have h0 : (pivotTable ds).values.getD r [] = [] :=
      List.getD_eq_default _ _ (by rw [pivot_values_length]; exact le_of_not_lt hr)
    rw [entry, h0]
    simp

/-! Lemmas: the loader -/

theorem joinedDataset_pos (b : List Book) (r : List RatingRow) (u : List UserRow) :
    ∀ t ∈ joinedDataset b r u, 0 < t.rating := by
  intro t ht
  simp only [joinedDataset, List.mem_flatMap, List.mem_map] at ht
  obtain ⟨s, hs, _, _, rfl⟩ := ht
  obtain ⟨s2, hs2, _, _, rfl⟩ := hs
  have h2 := List.mem_filter.mp hs2
  exact of_decide_eq_true h2.2

theorem filterStage_subset (mU mB : Nat) (m : List RatingRow) :
    ∀ t ∈ filterStage mU mB m, t ∈ m := by
  intro t ht
  simp only [filterStage] at ht
  split at ht
  · exact ht
  · split at ht
    · exact ht
    · exact List.mem_of_mem_filter (List.mem_of_mem_filter ht)

theorem filteredForMatrix_subset (mU mB : Nat) (m : List RatingRow) :
    ∀ t ∈ filteredForMatrix mU mB m, t ∈ m := by
  intro t ht
  rw [filteredForMatrix] at ht
  split at ht
  · exact ht
  · exact filterStage_subset mU mB m t ht

theorem loadSnapshotCfg_eq {mU mB : Nat} {b : List Book} {r : List RatingRow}
    {u : List UserRow} {snap : Snapshot}
    (h : loadSnapshotCfg mU mB b r u = some snap) :
    snap = buildSnapshotFrom b (filteredForMatrix mU mB (joinedDataset b r u)) := by
  simp only [loadSnapshotCfg] at h
  split at h
  · exact absurd h (by simp)
  · split at h
    · exact absurd h (by simp)
    · exact (Option.some.inj h).symm

theorem load_books_eq {mU mB : Nat} {b : List Book} {r : List RatingRow}
    {u : List UserRow} {snap : Snapshot}
    (h : loadSnapshotCfg mU mB b r u = some snap) : snap.books = b := by
  rw [loadSnapshotCfg_eq h]; rfl

theorem load_ubm_eq {mU mB : Nat} {b : List Book} {r : List RatingRow}
    {u : List UserRow} {snap : Snapshot}
    (h : loadSnapshotCfg mU mB b r u = some snap) :
    snap.ubm = pivotTable (filteredForMatrix mU mB (joinedDataset b r u)) := by
  rw [loadSnapshotCfg_eq h]; rfl

theorem load_colIds_nodup {mU mB : Nat} {b : List Book} {r : List RatingRow}
    {u : List UserRow} {snap : Snapshot}
    (h : loadSnapshotCfg mU mB b r u = some snap) : snap.ubm.colIds.Nodup := by
  rw [load_ubm_eq h]
  exact sortedDedup_nodup _

theorem load_entry_nonneg {mU mB : Nat} {b : List Book} {r : List RatingRow}
    {u : List UserRow} {snap : Snapshot}
    (h : loadSnapshotCfg mU mB b r u = some snap) (i j : Nat) :
    0 ≤ entry snap.ubm.values i j := by
  rw [load_ubm_eq h]
  refine pivot_entry_nonneg ?_ i j
  intro t ht
  exact joinedDataset_pos b r u t (filteredForMatrix_subset _ _ _ t ht)

/-! Lemmas: the recommender's success path -/

theorem avgScores_length (vals : List (List Rat)) (nbrs : List Nat) (zr : List Rat)
    (nCols : Nat) : (avgScores vals nbrs zr nCols).length = nCols := by
  simp [avgScores]

theorem maskScores_length (ar avg : List Rat) :
    (maskScores ar avg).length = avg.length := by
  simp [maskScores]

theorem maskScores_getD {ar avg : List Rat} {j : Nat} (h : j < avg.length) :
    (maskScores ar avg).getD j 0 = if 0 < ar.getD j 0 then -1 else avg.getD j 0 := by
  rw [maskScores]
  exact getD_map_range _ (by simpa using h) 0

theorem topIdxs_subset {masked : List Rat} {n j : Nat} (h : j ∈ topIdxs masked n) :
    j < masked.length ∧ 0 ≤ masked.getD j 0 := by
  have h1 := List.mem_of_mem_take h
  have h2 := List.mem_filter.mp h1
  exact ⟨mem_argsortDesc.mp h2.1, of_decide_eq_true h2.2⟩

theorem topIdxs_length (masked : List Rat) (n : Nat) : (topIdxs masked n).length ≤ n := by
  simp [topIdxs]

theorem topIdxs_nodup (masked : List Rat) (n : Nat) : (topIdxs masked n).Nodup :=
  (List.take_sublist _ _).nodup ((argsortDesc_nodup masked).filter _)

theorem mem_materialize {books : List Book} {colIds : List Nat} {masked : List Rat}
    {top : List Nat} {p : Nat × Rat} (h : p ∈ materialize books colIds masked top) :
    ∃ bk ∈ books, p = (bk.isbn, masked.getD (colIds.indexOf bk.isbn) 0) ∧
      ∃ j ∈ top, colIds.getD j 0 = bk.isbn := by
  simp only [materialize] at h
  rw [mem_sortPairsDesc] at h
  rcases List.mem_map.mp h with ⟨bk, hbk, rfl⟩
  have h2 := List.mem_filter.mp hbk
  refine ⟨bk, h2.1, rfl, ?_⟩
  have h3 : bk.isbn ∈ top.map (fun j => colIds.getD j 0) := of_decide_eq_true h2.2
  rcases List.mem_map.mp h3 with ⟨j, hj, hje⟩
  exact ⟨j, hj, hje⟩

theorem rec_ok_spec {books : List Book} {ubm : UBM} {simM : Nat → Nat → Rat}
    {q : String} {k topN : Nat} {pairs : List (Nat × Rat)}
    (h : getBookRecommendations books ubm simM q k topN = .ok pairs) :
    pairs = materialize books ubm.colIds (queryMasked books ubm simM q k)
      (topIdxs (queryMasked books ubm simM q k) topN) := by
  cases hres : resolveTitle q books with
  | none =>
    rw [getBookRecommendations, hres] at h
    exact absurd h (by simp)
  | some b =>
    simp only [getBookRecommendations, hres] at h
    split at h
    case isTrue hmem =>
      split at h
      case isTrue => exact absurd h (by simp)
      case isFalse =>
        split at h
        case isTrue => exact absurd h (by simp)
        case isFalse =>
          split at h
          case isTrue => exact absurd h (by simp)
          case isFalse =>
            have := (Except.ok.inj h).symm
            rw [this]
            simp only [queryMasked, queryCol, hres]
    case isFalse => exact absurd h (by simp)

/-! Lemmas: rational values of the real-valued similarity -/

theorem dotRows_self (r : List Rat) : dotRows r r = sqNormRow r := by
  induction r with
  | nil => rfl
  | cons x xs ih =>
    simp only [dotRows, sqNormRow, List.zip_cons_cons, List.map_cons, List.sum_cons] at ih ⊢
    rw [ih]

theorem sqNormRow_nonneg (r : List Rat) : 0 ≤ sqNormRow r := by
  refine List.sum_nonneg ?_
  intro x hx
  rcases List.mem_map.mp hx with ⟨y, _, rfl⟩
  exact mul_self_nonneg y

/-- Value of a similarity entry whose squared-norm product is a rational
perfect square: the entry is the rational `dot / r` where `r * r` is that
product. -/
theorem realSimEntry_rational (c : List (List Rat)) (i j : Nat) (r : Rat)
    (hp : sqNormRow (c.getD i []) ≠ 0) (hq : sqNormRow (c.getD j []) ≠ 0)
    (hr : 0 ≤ r)
    (hrr : r * r = sqNormRow (c.getD i []) * sqNormRow (c.getD j [])) :
    realSimEntry c i j = ((dotRows (c.getD i []) (c.getD j []) / r : Rat) : ℝ) := by
  rw [realSimEntry, rowDivisor, rowDivisor, if_neg hp, if_neg hq]
  rw [← Real.sqrt_mul (by exact_mod_cast sqNormRow_nonneg _)]
  have hcast : ((sqNormRow (c.getD i []) : Rat) : ℝ) * ((sqNormRow (c.getD j []) : Rat) : ℝ)
      = ((r : Rat) : ℝ) * ((r : Rat) : ℝ) := by
    exact_mod_cast congrArg (fun x : Rat => (x : ℝ)) hrr.symm
  rw [hcast, Real.sqrt_mul_self (by exact_mod_cast hr)]
  rw [Rat.cast_div]

/-- A similarity entry with zero dot product is 0 (whatever the norms). -/
theorem realSimEntry_zero_dot {c : List (List Rat)} {i j : Nat}
    (h : dotRows (c.getD i []) (c.getD j []) = 0) : realSimEntry c i j = 0 := by
  rw [realSimEntry, h]
  simp

/-- Diagonal similarity of a row with nonzero centered norm is exactly 1. -/
theorem realSimEntry_diag {c : List (List Rat)} {i : Nat}
    (h : sqNormRow (c.getD i []) ≠ 0) : realSimEntry c i i = 1 := by
  rw [realSimEntry_rational c i i (sqNormRow (c.getD i [])) h h (sqNormRow_nonneg _) rfl]
  rw [dotRows_self, div_self h]
  exact Rat.cast_one

/-! Claim C1 -/

/-- C1: for every loaded snapshot and every query on which
`get_book_recommendations` returns a ranked list, no item whose raw rating
in the anchor user's row of the rating matrix is nonzero appears among the
returned (itemId, predictedScore) pairs: the anchor's raw rating at every
returned item's column is 0.  (The similarity matrix is quantified over
all rational-valued inputs; the loaded snapshot supplies one particular
value of it.) -/
theorem recommendations_exclude_anchor_rated
    {b : List Book} {r : List RatingRow} {u : List UserRow} {snap : Snapshot}
    (hload : loadSnapshot b r u = some snap)
    {simM : Nat → Nat → Rat} {q : String} {k topN : Nat} {pairs : List (Nat × Rat)}
    (hok : getBookRecommendations snap.books snap.ubm simM q k topN = .ok pairs) :
    ∀ p ∈ pairs,
      entry snap.ubm.values (queryAnchor snap.ubm.values (queryCol snap.books snap.ubm q))
        (snap.ubm.colIds.indexOf p.1) = 0 := by
  intro p hp
  rw [rec_ok_spec hok] at hp
  obtain ⟨bk, hbk, hpe, j, hj, hcol⟩ := mem_materialize hp
  have hsub := topIdxs_subset hj
  have hmq : queryMasked snap.books snap.ubm simM q k
      = maskScores
          (snap.ubm.values.getD
            (queryAnchor snap.ubm.values (queryCol snap.books snap.ubm q)) [])
          (avgScores snap.ubm.values
            (neighborSelect
              (zeroedSimRow
                (simM (queryAnchor snap.ubm.values (queryCol snap.books snap.ubm q)))
                snap.ubm.values.length)
              (min k (snap.ubm.values.length - 1)))
            (zeroedSimRow
              (simM (queryAnchor snap.ubm.values (queryCol snap.books snap.ubm q)))
              snap.ubm.values.length)
            snap.ubm.colIds.length) := by
    simp only [queryMasked]
  have hmlen : (queryMasked snap.books snap.ubm simM q k).length
      = snap.ubm.colIds.length := by
    rw [hmq, maskScores_length, avgScores_length]
  have hjlt : j < snap.ubm.colIds.length := hmlen ▸ hsub.1
  have hnd : snap.ubm.colIds.Nodup := load_colIds_nodup hload
  have hidx : snap.ubm.colIds.indexOf p.1 = j := by
    rw [hpe]
    show snap.ubm.colIds.indexOf bk.isbn = j
    rw [← hcol, List.getD_eq_getElem _ _ hjlt]
    exact List.indexOf_getElem hnd j hjlt
  have hge := hsub.2
  rw [hmq, maskScores_getD (by rw [avgScores_length]; exact hjlt)] at hge
  rw [hidx]
  by_cases hpos : 0 < (snap.ubm.values.getD
      (queryAnchor snap.ubm.values (queryCol snap.books snap.ubm q)) []).getD j 0
  · rw [if_pos hpos] at hge
    exact absurd hge (by norm_num)
  · exact le_antisymm (le_of_not_lt hpos) (load_entry_nonneg hload _ _)

/-- Witness for C1: the tie dataset loads, the query on title B0 returns
four pairs, and the anchor's raw rating at the first returned item is 0. -/
theorem recommendations_exclude_anchor_rated_witness :
    loadSnapshot booksT ratingsT usersT = some snapT ∧
    getBookRecommendations snapT.books snapT.ubm simFT "B0" 1 10
      = .ok [(3, 3), (2, 3), (6, 0), (5, 0)] ∧
    entry snapT.ubm.values
      (queryAnchor snapT.ubm.values (queryCol snapT.books snapT.ubm "B0"))
      (snapT.ubm.colIds.indexOf 3) = 0 :=
  ⟨by with_unfolding_all decide, by with_unfolding_all decide,
   @recommendations_exclude_anchor_rated booksT ratingsT usersT snapT
     (by with_unfolding_all decide) simFT "B0" 1 10 [(3, 3), (2, 3), (6, 0), (5, 0)]
     (by with_unfolding_all decide) (3, 3) (by with_unfolding_all decide)⟩

/-! Claim C2 -/

/-- C2: on the snapshot built (by the matrix-construction stages the claim
cites; the full loader's ten-row floor would reject this seven-row source)
from exactly the scenario ratings U1:(A=8, B=6), U2:(A=9, B=7, C=5),
U3:(B=4, C=9), the user means are 7, 7, 6.5; the similarity matrix is
exactly [[1, 1/2, 1/2], [1/2, 1, −1/2], [1/2, −1/2, 1]]; and the query
for title C with k = 2 selects anchor U3 (row 2), the neighbour set
(U1 = row 0) with weight 1 (the predicted scores are U1's raw row), and
returns exactly the single pair (A, 8.0). -/
theorem scenario_snapshot_and_query :
    snapScenario.means = [7, 7, 13/2] ∧
    snapScenario.simSt = .cosineOf (centeredMatrix snapScenario.ubm.values) ∧
    simValue snapScenario.simSt 0 0 = 1 ∧
    simValue snapScenario.simSt 1 1 = 1 ∧
    simValue snapScenario.simSt 2 2 = 1 ∧
    simValue snapScenario.simSt 0 1 = 1/2 ∧
    simValue snapScenario.simSt 1 0 = 1/2 ∧
    simValue snapScenario.simSt 0 2 = 1/2 ∧
    simValue snapScenario.simSt 2 0 = 1/2 ∧
    simValue snapScenario.simSt 1 2 = -(1/2) ∧
    simValue snapScenario.simSt 2 1 = -(1/2) ∧
    queryAnchor snapScenario.ubm.values (snapScenario.ubm.colIds.indexOf 2) = 2 ∧
    neighborSelect (zeroedSimRow (fun j => (simQ3.getD 2 []).getD j 0) 3) (min 2 2) = [0] ∧
    avgScores snapScenario.ubm.values [0]
      (zeroedSimRow (fun j => (simQ3.getD 2 []).getD j 0) 3) 3 = [8, 6, 0] ∧
    getBookRecommendations books3 snapScenario.ubm
      (fun i j => (simQ3.getD i []).getD j 0) "C" 2 10 = .ok [(0, 8)] := by
  have hsim : snapScenario.simSt = .cosineOf (centeredMatrix snapScenario.ubm.values) := by
    with_unfolding_all decide
  refine ⟨by with_unfolding_all decide, hsim, ?_, ?_, ?_, ?_, ?_, ?_, ?_, ?_, ?_,
    by with_unfolding_all decide, by with_unfolding_all decide,
    by with_unfolding_all decide, by with_unfolding_all decide⟩
  · rw [hsim]
    exact realSimEntry_diag (by with_unfolding_all decide)
  · rw [hsim]
    exact realSimEntry_diag (by with_unfolding_all decide)
  · rw [hsim]
    exact realSimEntry_diag (by with_unfolding_all decide)
  · rw [hsim]
    show realSimEntry _ 0 1 = 1/2
    rw [realSimEntry_rational _ 0 1 4 (by with_unfolding_all decide)
      (by with_unfolding_all decide) (by norm_num) (by with_unfolding_all decide)]
    rw [show (dotRows ((centeredMatrix snapScenario.ubm.values).getD 0 [])
        ((centeredMatrix snapScenario.ubm.values).getD 1 []) / 4 : Rat) = 1/2 from by
      with_unfolding_all decide]
    norm_num
  · rw [hsim]
    show realSimEntry _ 1 0 = 1/2
    rw [realSimEntry_rational _ 1 0 4 (by with_unfolding_all decide)
      (by with_unfolding_all decide) (by norm_num) (by with_unfolding_all decide)]
    rw [show (dotRows ((centeredMatrix snapScenario.ubm.values).getD 1 [])
        ((centeredMatrix snapScenario.ubm.values).getD 0 []) / 4 : Rat) = 1/2 from by
      with_unfolding_all decide]
    norm_num
  · rw [hsim]
    show realSimEntry _ 0 2 = 1/2
    rw [realSimEntry_rational _ 0 2 5 (by with_unfolding_all decide)
      (by with_unfolding_all decide) (by norm_num) (by with_unfolding_all decide)]
    rw [show (dotRows ((centeredMatrix snapScenario.ubm.values).getD 0 [])
        ((centeredMatrix snapScenario.ubm.values).getD 2 []) / 5 : Rat) = 1/2 from by
      with_unfolding_all decide]
    norm_num
  · rw [hsim]
    show realSimEntry _ 2 0 = 1/2
    rw [realSimEntry_rational _ 2 0 5 (by with_unfolding_all decide)
      (by with_unfolding_all decide) (by norm_num) (by with_unfolding_all decide)]
    rw [show (dotRows ((centeredMatrix snapScenario.ubm.values).getD 2 [])
        ((centeredMatrix snapScenario.ubm.values).getD 0 []) / 5 : Rat) = 1/2 from by
      with_unfolding_all decide]
    norm_num
  · rw [hsim]
    show realSimEntry _ 1 2 = -(1/2)
    rw [realSimEntry_rational _ 1 2 10 (by with_unfolding_all decide)
      (by with_unfolding_all decide) (by norm_num) (by with_unfolding_all decide)]
    rw [show (dotRows ((centeredMatrix snapScenario.ubm.values).getD 1 [])
        ((centeredMatrix snapScenario.ubm.values).getD 2 []) / 10 : Rat) = -(1/2) from by
      with_unfolding_all decide]
    push_cast
    norm_num
  · rw [hsim]
    show realSimEntry _ 2 1 = -(1/2)
    rw [realSimEntry_rational _ 2 1 10 (by with_unfolding_all decide)
      (by with_unfolding_all decide) (by norm_num) (by with_unfolding_all decide)]
    rw [show (dotRows ((centeredMatrix snapScenario.ubm.values).getD 2 [])
        ((centeredMatrix snapScenario.ubm.values).getD 1 []) / 10 : Rat) = -(1/2) from by
      with_unfolding_all decide]
    push_cast
    norm_num

/-! Claim C10 -/

/-- The empty query matches a record exactly when its title is present:
`str.contains` is true for the empty needle, but `na=False` maps a missing
title to no-match. -/
theorem titleMatches_empty (bk : Book) : titleMatches "" bk = bk.title.isSome := by
  cases ht : bk.title with
  | none => simp [titleMatches, ht]
  | some t =>
    simp only [titleMatches, ht, Option.isSome_some]
    rw [containsSub]
    simp only [List.any_eq_true, List.mem_range]
    exact ⟨0, Nat.succ_pos _, by simp [lowerChars]⟩

/-- C10 counterexample: a loaded snapshot with a non-empty catalog whose
only record has a missing (NaN) title; the empty query returns
`NoMatchingTitle`, contradicting the claim that a non-empty catalog never
does. -/
theorem empty_query_nan_title_counterexample :
    loadSnapshot booksNT ratingsNT usersNT = some snapNT ∧
    snapNT.books ≠ [] ∧
    getBookRecommendations snapNT.books snapNT.ubm (fun _ _ => 0) "" 10 10
      = .error .noMatchingTitle :=
  ⟨by with_unfolding_all decide, by with_unfolding_all decide,
   by with_unfolding_all decide⟩

/-- C10 amended: when at least one catalog record has a present title, the
empty query resolves to the first such record (the empty substring matches
every present title) and the call never returns `NoMatchingTitle`. -/
theorem empty_query_resolves_first_titled (books : List Book) (ubm : UBM)
    (simM : Nat → Nat → Rat) (k topN : Nat)
    (h : ∃ bk ∈ books, bk.title ≠ none) :
    resolveTitle "" books = (books.filter (fun bk => bk.title.isSome)).head? ∧
    getBookRecommendations books ubm simM "" k topN ≠ .error .noMatchingTitle := by
  have hcongr : books.filter (titleMatches "") = books.filter (fun bk => bk.title.isSome) :=
    List.filter_congr (fun bk _ => titleMatches_empty bk)
  have hne : books.filter (titleMatches "") ≠ [] := by
    obtain ⟨bk, hbk, ht⟩ := h
    intro hemp
    have hmem : bk ∈ books.filter (titleMatches "") :=
      List.mem_filter.mpr ⟨hbk, by rw [titleMatches_empty]; exact Option.isSome_iff_ne_none.mpr ht⟩
    rw [hemp] at hmem
    exact absurd hmem (List.not_mem_nil _)
  obtain ⟨bk0, rest, hfe⟩ := List.exists_cons_of_ne_nil hne
  have hres : resolveTitle "" books = some bk0 := by rw [resolveTitle, hfe]; rfl
  refine ⟨by rw [resolveTitle, hcongr], ?_⟩
  simp only [getBookRecommendations, hres]
  split
  · split
    · simp
    · split
      · simp
      · split
        · simp
        · simp
  · simp

/-- Witness for the amended C10 at the tie catalog. -/
theorem empty_query_resolves_first_titled_witness :
    (∃ bk ∈ booksT, bk.title ≠ none) ∧
    (resolveTitle "" booksT = (booksT.filter (fun bk => bk.title.isSome)).head? ∧
     getBookRecommendations booksT snapT.ubm simFT "" 1 10 ≠ .error .noMatchingTitle) :=
  ⟨⟨⟨0, some "B0"⟩, by with_unfolding_all decide, by simp⟩,
   empty_query_resolves_first_titled booksT snapT.ubm simFT 1 10
     ⟨⟨0, some "B0"⟩, by with_unfolding_all decide, by simp⟩⟩

/-! Claim C4 -/

/-- C4 counterexample: after a successful load, a failing load (empty
books table, so the join is below the ten-row floor) replaces the
published books table, so not every component of the previous snapshot is
left untouched. -/
theorem failed_load_clobbers_books_counterexample :
    (loadState initialState booksD1 ratingsD1 usersD1).2 = true ∧
    (loadState (loadState initialState booksD1 ratingsD1 usersD1).1 [] ratingsD1 usersD1).2
      = false ∧
    (loadState (loadState initialState booksD1 ratingsD1 usersD1).1 [] ratingsD1 usersD1).1.booksData
      ≠ (loadState initialState booksD1 ratingsD1 usersD1).1.booksData :=
  ⟨by with_unfolding_all decide, by with_unfolding_all decide,
   by with_unfolding_all decide⟩

/-- C4 amended: a load failing the ten-row floor reports failure and
leaves the matrix-side components (pivot, dense matrix, means, similarity,
filtered dataset) untouched, but it has already replaced the books,
ratings and users tables, so queries that consult the books table can
behave differently afterwards. -/
theorem failed_load_preserves_matrix_components (st : EngineState) (b : List Book)
    (r : List RatingRow) (u : List UserRow)
    (h : (joinedDataset b r u).length < 10) :
    (loadState st b r u).2 = false ∧
    (loadState st b r u).1.userBookMatrix = st.userBookMatrix ∧
    (loadState st b r u).1.ratingsMatrix = st.ratingsMatrix ∧
    (loadState st b r u).1.means = st.means ∧
    (loadState st b r u).1.similarity = st.similarity ∧
    (loadState st b r u).1.mergedFiltered = st.mergedFiltered ∧
    (loadState st b r u).1.booksData = some b ∧
    (loadState st b r u).1.ratingsData = some (r.filter (fun t => 0 < t.rating)) ∧
    (loadState st b r u).1.usersData = some u := by
  simp only [loadState]
  rw [if_pos h]
  simp

/-- Witness for the amended C4: loading an empty books table over the
state left by a successful load. -/
theorem failed_load_preserves_matrix_components_witness :
    (joinedDataset [] ratingsD1 usersD1).length < 10 ∧
    ((loadState (loadState initialState booksD1 ratingsD1 usersD1).1 [] ratingsD1 usersD1).2
        = false ∧
     (loadState (loadState initialState booksD1 ratingsD1 usersD1).1 [] ratingsD1
        usersD1).1.userBookMatrix
        = (loadState initialState booksD1 ratingsD1 usersD1).1.userBookMatrix ∧
     (loadState (loadState initialState booksD1 ratingsD1 usersD1).1 [] ratingsD1
        usersD1).1.ratingsMatrix
        = (loadState initialState booksD1 ratingsD1 usersD1).1.ratingsMatrix ∧
     (loadState (loadState initialState booksD1 ratingsD1 usersD1).1 [] ratingsD1
        usersD1).1.means
        = (loadState initialState booksD1 ratingsD1 usersD1).1.means ∧
     (loadState (loadState initialState booksD1 ratingsD1 usersD1).1 [] ratingsD1
        usersD1).1.similarity
        = (loadState initialState booksD1 ratingsD1 usersD1).1.similarity ∧
     (loadState (loadState initialState booksD1 ratingsD1 usersD1).1 [] ratingsD1
        usersD1).1.mergedFiltered
        = (loadState initialState booksD1 ratingsD1 usersD1).1.mergedFiltered ∧
     (loadState (loadState initialState booksD1 ratingsD1 usersD1).1 [] ratingsD1
        usersD1).1.booksData = some [] ∧
     (loadState (loadState initialState booksD1 ratingsD1 usersD1).1 [] ratingsD1
        usersD1).1.ratingsData = some (ratingsD1.filter (fun t => 0 < t.rating)) ∧
     (loadState (loadState initialState booksD1 ratingsD1 usersD1).1 [] ratingsD1
        usersD1).1.usersData = some usersD1) :=
  ⟨by with_unfolding_all decide,
   failed_load_preserves_matrix_components
     (loadState initialState booksD1 ratingsD1 usersD1).1 [] ratingsD1 usersD1
     (by with_unfolding_all decide)⟩

/-! Claim C5 -/

/-- C5 counterexample: on `mergedC5` with user threshold 2 and item
threshold 5, the user filter keeps a nonempty set, the item filter leaves
zero qualifying items, and the stage result is the fully unfiltered joined
dataset, which differs from the user-filtered subset the claim names. -/
theorem item_filter_fallback_counterexample :
    usersEnough 2 mergedC5 ≠ [] ∧
    itemsEnough 5 (userFiltered 2 mergedC5) = [] ∧
    filterStage 2 5 mergedC5 = mergedC5 ∧
    userFiltered 2 mergedC5 ≠ mergedC5 :=
  ⟨by with_unfolding_all decide, by with_unfolding_all decide,
   by with_unfolding_all decide, by with_unfolding_all decide⟩

/-- C5 amended: when the user filter keeps a nonempty set but the item
filter leaves zero qualifying items, the stage falls back to the fully
unfiltered joined dataset (not to the user-filtered subset). -/
theorem item_filter_empty_falls_back_unfiltered (mU mB : Nat) (m : List RatingRow)
    (h1 : usersEnough mU m ≠ []) (h2 : itemsEnough mB (userFiltered mU m) = []) :
    filterStage mU mB m = m := by
  simp only [filterStage]
  rw [if_neg h1, if_pos h2]

/-- Witness for the amended C5. -/
theorem item_filter_empty_falls_back_unfiltered_witness :
    usersEnough 2 mergedC5 ≠ [] ∧ itemsEnough 5 (userFiltered 2 mergedC5) = [] ∧
    filterStage 2 5 mergedC5 = mergedC5 :=
  ⟨by with_unfolding_all decide, by with_unfolding_all decide,
   item_filter_empty_falls_back_unfiltered 2 5 mergedC5
     (by with_unfolding_all decide) (by with_unfolding_all decide)⟩

/-! Claim C6 -/

/-- C6 counterexample: the pair (user 1, item 1) occurs twice, rated 4 and
then 10; the matrix cell is the mean 7, not the last written rating 10. -/
theorem duplicate_pair_mean_counterexample :
    entry (pivotTable dsDup).values 0 0 = 7 ∧
    (dsDup.filter (fun t => t.userId == 1 && t.isbn == 1)).getLast?
      = some ⟨1, 1, 10⟩ ∧
    (7 : Rat) ≠ 10 :=
  ⟨by with_unfolding_all decide, by with_unfolding_all decide,
   by with_unfolding_all decide⟩

/-- C6 amended: a cell whose (user, item) group has two or more triples
holds the arithmetic mean of all the group's ratings (the `pivot_table`
default aggregation), not the last one. -/
theorem duplicate_pair_cell_is_mean (ds : List RatingRow) (u i : Nat)
    (h : 2 ≤ (groupRatings ds u i).length) :
    entry (pivotTable ds).values
      ((pivotTable ds).rowIds.indexOf u) ((pivotTable ds).colIds.indexOf i)
      = (groupRatings ds u i).sum / (groupRatings ds u i).length := by
  have hg : groupRatings ds u i ≠ [] := by
    intro he
    rw [he] at h
    simp at h
  obtain ⟨x, hx⟩ := List.exists_mem_of_ne_nil _ hg
  rcases List.mem_map.mp hx with ⟨t, htf, _⟩
  have ht := List.mem_filter.mp htf
  have hte : t.userId = u ∧ t.isbn = i := by
    have h2 := ht.2
    simp only [Bool.and_eq_true, beq_iff_eq] at h2
    exact h2
  have hu : u ∈ (pivotTable ds).rowIds := by
    show u ∈ sortedDedup (ds.map (fun t => t.userId))
    rw [mem_sortedDedup]
    exact List.mem_map.mpr ⟨t, ht.1, hte.1⟩
  have hi : i ∈ (pivotTable ds).colIds := by
    show i ∈ sortedDedup (ds.map (fun t => t.isbn))
    rw [mem_sortedDedup]
    exact List.mem_map.mpr ⟨t, ht.1, hte.2⟩
  have hur : (pivotTable ds).rowIds.indexOf u < (pivotTable ds).rowIds.length :=
    List.indexOf_lt_length.mpr hu
  have hic : (pivotTable ds).colIds.indexOf i < (pivotTable ds).colIds.length :=
    List.indexOf_lt_length.mpr hi
  rw [pivot_entry ds hur hic]
  rw [List.getD_eq_getElem _ _ hur, List.getD_eq_getElem _ _ hic]
  rw [List.getElem_indexOf hur, List.getElem_indexOf hic]
  rw [cellAgg]
  rw [if_neg (by omega)]

/-- Witness for the amended C6 at the duplicated-pair dataset. -/
theorem duplicate_pair_cell_is_mean_witness :
    2 ≤ (groupRatings dsDup 1 1).length ∧
    entry (pivotTable dsDup).values
      ((pivotTable dsDup).rowIds.indexOf 1) ((pivotTable dsDup).colIds.indexOf 1)
      = (groupRatings dsDup 1 1).sum / (groupRatings dsDup 1 1).length :=
  ⟨by with_unfolding_all decide,
   duplicate_pair_cell_is_mean dsDup 1 1 (by with_unfolding_all decide)⟩

/-! Claim C7 -/

/-- C7 counterexample: the users of `dsOrd` first appear in the order
2, 1, but the pivot rows are the sorted order 1, 2; row 0 holds user 1's
rating 4, not first-seen user 2's rating 3. -/
theorem pivot_row_order_counterexample :
    (pivotTable dsOrd).rowIds = [1, 2] ∧
    (dsOrd.map (fun t => t.userId)).dedup = [2, 1] ∧
    (pivotTable dsOrd).rowIds ≠ (dsOrd.map (fun t => t.userId)).dedup ∧
    (pivotTable dsOrd).values = [[4], [3]] ∧
    dsOrd.getD 0 ⟨0, 0, 0⟩ = ⟨2, 7, 3⟩ :=
  ⟨by with_unfolding_all decide, by with_unfolding_all decide,
   by with_unfolding_all decide, by with_unfolding_all decide,
   by with_unfolding_all decide⟩

/-- C7 amended: the pivot rows and columns are the distinct user and item
identifiers in ascending sorted order (not first-seen order), and entry
(r, c) aggregates the group of the r-th sorted user and c-th sorted item. -/
theorem pivot_index_sorted (ds : List RatingRow) :
    List.Sorted (· ≤ ·) (pivotTable ds).rowIds ∧ (pivotTable ds).rowIds.Nodup ∧
    (∀ u, u ∈ (pivotTable ds).rowIds ↔ u ∈ ds.map (fun t => t.userId)) ∧
    List.Sorted (· ≤ ·) (pivotTable ds).colIds ∧ (pivotTable ds).colIds.Nodup ∧
    (∀ i, i ∈ (pivotTable ds).colIds ↔ i ∈ ds.map (fun t => t.isbn)) ∧
    ∀ r, r < (pivotTable ds).rowIds.length → ∀ c, c < (pivotTable ds).colIds.length →
      entry (pivotTable ds).values r c
        = cellAgg ds ((pivotTable ds).rowIds.getD r 0) ((pivotTable ds).colIds.getD c 0) :=
  ⟨sortedDedup_sorted _, sortedDedup_nodup _, fun _ => mem_sortedDedup,
   sortedDedup_sorted _, sortedDedup_nodup _, fun _ => mem_sortedDedup,
   fun _ hr _ hc => pivot_entry ds hr hc⟩

/-- Witness for the amended C7 at the out-of-order dataset. -/
theorem pivot_index_sorted_witness :
    0 < (pivotTable dsOrd).rowIds.length ∧ 0 < (pivotTable dsOrd).colIds.length ∧
    entry (pivotTable dsOrd).values 0 0
      = cellAgg dsOrd ((pivotTable dsOrd).rowIds.getD 0 0)
          ((pivotTable dsOrd).colIds.getD 0 0) :=
  ⟨by with_unfolding_all decide, by with_unfolding_all decide,
   (pivot_index_sorted dsOrd).2.2.2.2.2.2 0 (by with_unfolding_all decide)
     0 (by with_unfolding_all decide)⟩

/-! Claim C8 -/

/-- C8 counterexample: a loaded snapshot whose row 0 (user 1, who rated
both items 5) has nonzero raw ratings but an all-zero centered row; its
diagonal similarity entry is 0, not 1. -/
theorem equal_ratings_diag_counterexample :
    loadSnapshot booksEq ratingsEq usersEq = some snapEq ∧
    entry snapEq.ubm.values 0 0 = 5 ∧
    snapEq.simSt = .cosineOf (centeredMatrix snapEq.ubm.values) ∧
    simValue snapEq.simSt 0 0 = 0 ∧
    (0 : ℝ) ≠ 1 := by
  have hsim : snapEq.simSt = .cosineOf (centeredMatrix snapEq.ubm.values) := by
    with_unfolding_all decide
  refine ⟨by with_unfolding_all decide, by with_unfolding_all decide, hsim, ?_, by norm_num⟩
  rw [hsim]
  show realSimEntry _ 0 0 = 0
  exact realSimEntry_zero_dot (by with_unfolding_all decide)

/-- C8 amended: the diagonal similarity entry of a loaded snapshot is 1
for every row whose centered vector is nonzero (rather than every row with
a nonzero raw rating); the one-user degenerate branch publishes 1 as well. -/
theorem nonzero_centered_diag_one {mU mB : Nat} {b : List Book} {r : List RatingRow}
    {u : List UserRow} {snap : Snapshot}
    (hload : loadSnapshotCfg mU mB b r u = some snap)
    {i : Nat} (hi : i < snap.ubm.values.length)
    (hs : sqNormRow ((centeredMatrix snap.ubm.values).getD i []) ≠ 0) :
    simValue snap.simSt i i = 1 := by
  have hsnap := loadSnapshotCfg_eq hload
  subst hsnap
  simp only [buildSnapshotFrom] at hi hs ⊢
  by_cases hrows :
      (pivotTable (filteredForMatrix mU mB (joinedDataset b r u))).values.length < 2
  · rw [if_pos hrows]
    have hz : i = 0 := by omega
    subst hz
    simp [simValue]
  · rw [if_neg hrows]
    show realSimEntry _ i i = 1
    exact realSimEntry_diag hs

/-- Witness for the amended C8: row 1 of the equal-ratings snapshot has a
nonzero centered vector and diagonal similarity 1. -/
theorem nonzero_centered_diag_one_witness :
    loadSnapshotCfg 2 1 booksEq ratingsEq usersEq = some snapEq ∧
    1 < snapEq.ubm.values.length ∧
    sqNormRow ((centeredMatrix snapEq.ubm.values).getD 1 []) ≠ 0 ∧
    simValue snapEq.simSt 1 1 = 1 :=
  ⟨by with_unfolding_all decide, by with_unfolding_all decide,
   by with_unfolding_all decide,
   @nonzero_centered_diag_one 2 1 booksEq ratingsEq usersEq snapEq
     (by with_unfolding_all decide) 1 (by with_unfolding_all decide)
     (by with_unfolding_all decide)⟩

/-! Claim C9 -/

theorem zeroedSimRow_length (simRow : Nat → Rat) (rows : Nat) :
    (zeroedSimRow simRow rows).length = rows := by
  simp [zeroedSimRow]

theorem zeroedSimRow_getD (simRow : Nat → Rat) {rows j : Nat} (h : j < rows) :
    (zeroedSimRow simRow rows).getD j 0 = if simRow j ≤ 0 then 0 else simRow j := by
  rw [zeroedSimRow]
  exact getD_map_range _ h 0

/-- C9 counterexample: on the parallel-rows snapshot the real similarity
of rows 0 and 1 is exactly 1; the query for title P anchors at row 0, and
with the similarity row (1, 1) the neighbour selection drops ranked
position 0 — which the tie placed on user 1, not on the anchor — and
returns exactly the anchor itself, so the anchor is in the neighbour set
and the claimed top-k-of-others set (which would be user 1) is not. -/
theorem self_neighbor_counterexample :
    resolveTitle "P" booksPar = some ⟨1, some "P"⟩ ∧
    (1 : Nat) ∈ ubmPar.colIds ∧
    ratersOf ubmPar.values (ubmPar.colIds.indexOf 1) ≠ [] ∧
    queryAnchor ubmPar.values (ubmPar.colIds.indexOf 1) = 0 ∧
    realSimEntry (centeredMatrix ubmPar.values) 0 0 = 1 ∧
    realSimEntry (centeredMatrix ubmPar.values) 0 1 = 1 ∧
    neighborSelect (zeroedSimRow (fun j => ([1, 1] : List Rat).getD j 0)
      ubmPar.values.length) (min 5 (ubmPar.values.length - 1)) = [0] := by
  refine ⟨by with_unfolding_all decide, by with_unfolding_all decide,
    by with_unfolding_all decide, by with_unfolding_all decide, ?_, ?_,
    by with_unfolding_all decide⟩
  · exact realSimEntry_diag (by with_unfolding_all decide)
  · rw [realSimEntry_rational _ 0 1 1 (by with_unfolding_all decide)
      (by with_unfolding_all decide) (by norm_num) (by with_unfolding_all decide)]
    rw [show (dotRows ((centeredMatrix ubmPar.values).getD 0 [])
        ((centeredMatrix ubmPar.values).getD 1 []) / 1 : Rat) = 1 from by
      with_unfolding_all decide]
    exact Rat.cast_one

/-- C9 amended: when the anchor's entry of the similarity row is strictly
greater than every other user's entry (it then occupies ranked position 0,
the position the code drops), the selected neighbours are other users with
strictly positive similarity, there are at most `min k (rows − 1)` of
them, the anchor is not among them, and no positive-similarity non-anchor
user left out beats any selected neighbour. -/
theorem neighbor_selection_under_unique_max (simRow : Nat → Rat) (rows k a : Nat)
    (ha : a < rows) (hpos : 0 < simRow a)
    (hmax : ∀ j, j < rows → j ≠ a → simRow j < simRow a) :
    a ∉ neighborSelect (zeroedSimRow simRow rows) (min k (rows - 1)) ∧
    (∀ n ∈ neighborSelect (zeroedSimRow simRow rows) (min k (rows - 1)),
      n < rows ∧ n ≠ a ∧ 0 < simRow n) ∧
    (neighborSelect (zeroedSimRow simRow rows) (min k (rows - 1))).length
      ≤ min k (rows - 1) ∧
    (∀ j, j < rows → j ≠ a → 0 < simRow j →
      j ∉ neighborSelect (zeroedSimRow simRow rows) (min k (rows - 1)) →
      ∀ n ∈ neighborSelect (zeroedSimRow simRow rows) (min k (rows - 1)),
        simRow j ≤ simRow n) := by
  set zr := zeroedSimRow simRow rows with hzr
  set kE := min k (rows - 1) with hkE
  have hzlen : zr.length = rows := zeroedSimRow_length simRow rows
  have hzpos : ∀ {n : Nat}, n < rows → (0 < zr.getD n 0 ↔ 0 < simRow n) := by
    intro n hn
    rw [hzr, zeroedSimRow_getD simRow hn]
    split
    case isTrue hle =>
      constructor
      · intro h0
        exact absurd h0 (lt_irrefl 0)
      · intro h0
        exact absurd hle (not_le.mpr h0)
    case isFalse hle => exact Iff.rfl
  have hza : zr.getD a 0 = simRow a := by
    rw [hzr, zeroedSimRow_getD simRow ha, if_neg (not_le.mpr hpos)]
  have hzlt : ∀ j, j < rows → j ≠ a → zr.getD j 0 < zr.getD a 0 := by
    intro j hj hja
    rw [hza, hzr, zeroedSimRow_getD simRow hj]
    split
    · exact hpos
    · exact hmax j hj hja
  have hmemL : ∀ {x : Nat}, x ∈ argsortDesc zr ↔ x < rows := by
    intro x
    rw [mem_argsortDesc, hzlen]
  have hpw : (argsortDesc zr).Pairwise (fun i j => keyLe zr j i) := argsortDesc_pairwise zr
  have hndL : (argsortDesc zr).Nodup := argsortDesc_nodup zr
  cases hL : argsortDesc zr with
  | nil =>
    exact absurd (hmemL.mpr ha) (by rw [hL]; exact List.not_mem_nil a)
  | cons hd tl =>
    have hhd : hd = a := by
      by_contra hne
      have hamem : a ∈ tl := by
        have := hmemL.mpr ha
        rw [hL] at this
        rcases List.mem_cons.mp this with h1 | h1
        · exact absurd h1.symm hne
        · exact h1
      have hkey : keyLe zr a hd := by
        have := hpw
        rw [hL] at this
        exact (List.pairwise_cons.mp this).1 a hamem
      have hhdlt : hd < rows := hmemL.mp (by rw [hL]; exact List.mem_cons_self _ _)
      have hlt := hzlt hd hhdlt (fun h => hne (h ▸ rfl))
      rcases hkey with h1 | ⟨h1, _⟩
      · exact absurd (h1.trans hlt) (lt_irrefl _)
      · exact absurd h1 (ne_of_gt hlt)
    subst hhd
    have hatl : hd ∉ tl := by
      have := hndL
      rw [hL] at this
      exact (List.nodup_cons.mp this).1
    have htlpw : tl.Pairwise (fun i j => keyLe zr j i) := by
      have := hpw
      rw [hL] at this
      exact (List.pairwise_cons.mp this).2
    have hsel : neighborSelect zr kE = (tl.take kE).filter (fun j => 0 < zr.getD j 0) := by
      rw [neighborSelect, hL]
      rfl
    have hsubtl : ∀ {n : Nat}, n ∈ neighborSelect zr kE → n ∈ tl := by
      intro n hn
      rw [hsel] at hn
      exact List.mem_of_mem_take (List.mem_of_mem_filter hn)
    have htlmem : ∀ {n : Nat}, n ∈ tl → n < rows := by
      intro n hn
      exact hmemL.mp (by rw [hL]; exact List.mem_cons_of_mem _ hn)
    refine ⟨fun hmem => hatl (hsubtl hmem), ?_, ?_, ?_⟩
    · intro n hn
      have hntl := hsubtl hn
      have hnrows := htlmem hntl
      have hnpos : 0 < zr.getD n 0 := by
        rw [hsel] at hn
        exact of_decide_eq_true (List.mem_filter.mp hn).2
      exact ⟨hnrows, fun he => hatl (he ▸ hntl), (hzpos hnrows).mp hnpos⟩
    · rw [hsel]
      calc ((tl.take kE).filter (fun j => 0 < zr.getD j 0)).length
          ≤ (tl.take kE).length := List.length_filter_le _ _
        _ ≤ kE := List.length_take_le _ _
    · intro j hj hja hjpos hjnot n hn
      have hjtl : j ∈ tl := by
        have := hmemL.mpr hj
        rw [hL] at this
        rcases List.mem_cons.mp this with h1 | h1
        · exact absurd h1 hja
        · exact h1
      have hjdrop : j ∈ tl.drop kE := by
        rcases (List.mem_append.mp (by rw [List.take_append_drop kE tl]; exact hjtl)) with h1 | h1
        · exfalso
          apply hjnot
          rw [hsel]
          refine List.mem_filter.mpr ⟨h1, ?_⟩
          exact decide_eq_true ((hzpos hj).mpr hjpos)
        · exact h1
      have hntake : n ∈ tl.take kE := by
        rw [hsel] at hn
        exact List.mem_of_mem_filter hn
      have happ : (tl.take kE ++ tl.drop kE).Pairwise (fun i j => keyLe zr j i) := by
        rw [List.take_append_drop kE tl]
        exact htlpw
      have hkey : keyLe zr j n := (List.pairwise_append.mp happ).2.2 n hntake j hjdrop
      have hnrows := htlmem (List.mem_of_mem_take hntake)
      have hnpos : 0 < simRow n := by
        rw [hsel] at hn
        exact (hzpos hnrows).mp (of_decide_eq_true (List.mem_filter.mp hn).2)
      have hje : zr.getD j 0 = simRow j := by
        rw [hzr, zeroedSimRow_getD simRow hj, if_neg (not_le.mpr hjpos)]
      have hne : zr.getD n 0 = simRow n := by
        rw [hzr, zeroedSimRow_getD simRow hnrows, if_neg (not_le.mpr hnpos)]
      rcases hkey with h1 | ⟨h1, _⟩
      · rw [hje, hne] at h1
        exact le_of_lt h1
      · rw [hje, hne] at h1
        exact le_of_eq h1

/-- Witness for the amended C9: two users, similarity row (1, 1/2), whose
anchor 0 is the strict maximum. -/
theorem neighbor_selection_under_unique_max_witness :
    (0 < (fun j => ([1, 1/2] : List Rat).getD j 0) 0) ∧
    (∀ j, j < 2 → j ≠ 0 → (fun j => ([1, 1/2] : List Rat).getD j 0) j
      < (fun j => ([1, 1/2] : List Rat).getD j 0) 0) ∧
    (0 ∉ neighborSelect (zeroedSimRow (fun j => ([1, 1/2] : List Rat).getD j 0) 2)
        (min 5 (2 - 1)) ∧
     (∀ n ∈ neighborSelect (zeroedSimRow (fun j => ([1, 1/2] : List Rat).getD j 0) 2)
        (min 5 (2 - 1)), n < 2 ∧ n ≠ 0 ∧ 0 < (fun j => ([1, 1/2] : List Rat).getD j 0) n) ∧
     (neighborSelect (zeroedSimRow (fun j => ([1, 1/2] : List Rat).getD j 0) 2)
        (min 5 (2 - 1))).length ≤ min 5 (2 - 1) ∧
     (∀ j, j < 2 → j ≠ 0 → 0 < (fun j => ([1, 1/2] : List Rat).getD j 0) j →
        j ∉ neighborSelect (zeroedSimRow (fun j => ([1, 1/2] : List Rat).getD j 0) 2)
          (min 5 (2 - 1)) →
        ∀ n ∈ neighborSelect (zeroedSimRow (fun j => ([1, 1/2] : List Rat).getD j 0) 2)
          (min 5 (2 - 1)),
          (fun j => ([1, 1/2] : List Rat).getD j 0) j
            ≤ (fun j => ([1, 1/2] : List Rat).getD j 0) n)) :=
  ⟨by with_unfolding_all decide, by with_unfolding_all decide,
   neighbor_selection_under_unique_max (fun j => ([1, 1/2] : List Rat).getD j 0) 2 5 0
     (by with_unfolding_all decide) (by with_unfolding_all decide)
     (by with_unfolding_all decide)⟩

/-! Claim C3 -/

theorem length_le_of_nodup_subset {l s : List Nat} (hnd : l.Nodup) (hsub : l ⊆ s) :
    l.length ≤ s.length := by
  calc l.length = l.toFinset.card := (List.toFinset_card_of_nodup hnd).symm
    _ ≤ s.toFinset.card :=
      Finset.card_le_card (fun x hx => List.mem_toFinset.mpr (hsub (List.mem_toFinset.mp hx)))
    _ ≤ s.length := List.toFinset_card_le s

theorem getD_map_of_lt {α β : Type} (f : α → β) {l : List α} {i : Nat}
    (h : i < l.length) (d : α) (d2 : β) : (l.map f).getD i d2 = f (l.getD i d) := by
  rw [List.getD_eq_getElem _ _ (by simpa using h), List.getD_eq_getElem _ _ h]
  simp

/-- The materialized output has at most as many rows as recommended
column positions, provided catalog isbns are unique. -/
theorem materialize_length_le {books : List Book} {colIds : List Nat}
    (masked : List Rat) (top : List Nat)
    (hnd : (books.map (fun bk => bk.isbn)).Nodup) :
    (materialize books colIds masked top).length ≤ top.length := by
  simp only [materialize]
  rw [sortPairsDesc_length, List.length_map]
  have h1 : (List.filter (fun bk => decide (bk.isbn ∈ top.map (fun j => colIds.getD j 0)))
      books).map (fun bk => bk.isbn) ⊆ top.map (fun j => colIds.getD j 0) := by
    intro x hx
    rcases List.mem_map.mp hx with ⟨bk, hbk, rfl⟩
    exact of_decide_eq_true (List.mem_filter.mp hbk).2
  have h2 : ((List.filter (fun bk => decide (bk.isbn ∈ top.map (fun j => colIds.getD j 0)))
      books).map (fun bk => bk.isbn)).Nodup :=
    hnd.sublist (List.Sublist.map (fun bk : Book => bk.isbn) (List.filter_sublist _))
  calc (List.filter (fun bk => decide (bk.isbn ∈ top.map (fun j => colIds.getD j 0)))
        books).length
      = ((List.filter (fun bk => decide (bk.isbn ∈ top.map (fun j => colIds.getD j 0)))
          books).map (fun bk => bk.isbn)).length := (List.length_map _ _).symm
    _ ≤ (top.map (fun j => colIds.getD j 0)).length := length_le_of_nodup_subset h2 h1
    _ = top.length := List.length_map _ _

/-- Any two positions of a filtered catalog keep their relative catalog
order, measured by `indexOf` over the (unique) catalog isbns. -/
theorem filter_indexOf_mono {books : List Book} (pred : Book → Bool)
    (hnd : (books.map (fun bk => bk.isbn)).Nodup) {i j : Nat}
    (hji : j < i) (hi : i < (books.filter pred).length) :
    (books.map (fun bk => bk.isbn)).indexOf (((books.filter pred).getD j ⟨0, none⟩).isbn)
      < (books.map (fun bk => bk.isbn)).indexOf
          (((books.filter pred).getD i ⟨0, none⟩).isbn) := by
  have hsub : List.Sublist ((books.filter pred).map (fun bk => bk.isbn))
      (books.map (fun bk => bk.isbn)) :=
    List.Sublist.map (fun bk : Book => bk.isbn) (List.filter_sublist _)
  have hpw := List.Pairwise.sublist hsub (nodup_pairwise_indexOf hnd)
  rw [List.pairwise_iff_get] at hpw
  have hj : j < (books.filter pred).length := hji.trans hi
  have hil : i < ((books.filter pred).map (fun bk => bk.isbn)).length := by simpa using hi
  have hjl : j < ((books.filter pred).map (fun bk => bk.isbn)).length := by simpa using hj
  have hg := hpw ⟨j, hjl⟩ ⟨i, hil⟩ hji
  simp only [List.get_eq_getElem, List.getElem_map] at hg
  rwa [List.getD_eq_getElem _ _ hj, List.getD_eq_getElem _ _ hi]

/-- The materialized output of the stable-sort model is pairwise ordered:
strictly descending scores, with score ties in strictly descending
catalog position.  The tie half of this disjunction describes the model's
deterministic stable sort (exact only below the real sort's stability
threshold); claim-level theorems keep only its stability-independent
consequence, the non-increasing score order. -/
theorem materialize_pairwise {books : List Book} {colIds : List Nat}
    (masked : List Rat) (top : List Nat)
    (hnd : (books.map (fun bk => bk.isbn)).Nodup) :
    (materialize books colIds masked top).Pairwise (fun p pq =>
      pq.2 < p.2 ∨ (pq.2 = p.2 ∧
        (books.map (fun bk => bk.isbn)).indexOf pq.1
          < (books.map (fun bk => bk.isbn)).indexOf p.1)) := by
  simp only [materialize]
  refine (sortPairsDesc_pairwise _).imp ?_
  rintro p pq (h1 | ⟨h1, i, j, hji, hi, hj, hpi, hpj⟩)
  · exact Or.inl h1
  · refine Or.inr ⟨h1, ?_⟩
    rw [List.length_map] at hi hj
    rw [getD_map_of_lt _ hi ⟨0, none⟩ (0, 0)] at hpi
    rw [getD_map_of_lt _ hj ⟨0, none⟩ (0, 0)] at hpj
    rw [← (congrArg Prod.fst hpi : _ = p.1), ← (congrArg Prod.fst hpj : _ = pq.1)]
    exact filter_indexOf_mono _ hnd hji hi

/-- C3 counterexample: the loaded tie snapshot, whose real similarity row
of anchor 0 equals the rational row (1, 1/3, 0, 0) supplied to the query,
answers the query for title B0 (k = 1, topN = 10) with the tied items in
the order (3, 3), (2, 3): equal scores with column indices 3, 2 — in
descending, not the claimed ascending, column-index order.  (All sorts in
this run are over at most seven elements, squarely inside the regime
where the real numpy sort is the stable insertion sort the model uses.) -/
theorem tie_order_counterexample :
    loadSnapshot booksT ratingsT usersT = some snapT ∧
    snapT.simSt = .cosineOf (centeredMatrix snapT.ubm.values) ∧
    queryAnchor snapT.ubm.values (snapT.ubm.colIds.indexOf 0) = 0 ∧
    simValue snapT.simSt 0 0 = 1 ∧
    simValue snapT.simSt 0 1 = ((1/3 : Rat) : ℝ) ∧
    simValue snapT.simSt 0 2 = 0 ∧
    simValue snapT.simSt 0 3 = 0 ∧
    simFT 0 0 = 1 ∧ simFT 0 1 = 1/3 ∧ simFT 0 2 = 0 ∧ simFT 0 3 = 0 ∧
    getBookRecommendations snapT.books snapT.ubm simFT "B0" 1 10
      = .ok [(3, 3), (2, 3), (6, 0), (5, 0)] ∧
    ¬ ([((3 : Nat), (3 : Rat)), (2, 3), (6, 0), (5, 0)].Pairwise
        (fun p pq => p.2 = pq.2 →
          snapT.ubm.colIds.indexOf p.1 < snapT.ubm.colIds.indexOf pq.1)) := by
  have hsim : snapT.simSt = .cosineOf (centeredMatrix snapT.ubm.values) := by
    with_unfolding_all decide
  refine ⟨by with_unfolding_all decide, hsim, by with_unfolding_all decide, ?_, ?_, ?_, ?_,
    by with_unfolding_all decide, by with_unfolding_all decide, by with_unfolding_all decide,
    by with_unfolding_all decide, by with_unfolding_all decide, by with_unfolding_all decide⟩
  · rw [hsim]
    exact realSimEntry_diag (by with_unfolding_all decide)
  · rw [hsim]
    show realSimEntry _ 0 1 = _
    rw [realSimEntry_rational _ 0 1 6 (by with_unfolding_all decide)
      (by with_unfolding_all decide) (by norm_num) (by with_unfolding_all decide)]
    rw [show (dotRows ((centeredMatrix snapT.ubm.values).getD 0 [])
        ((centeredMatrix snapT.ubm.values).getD 1 []) / 6 : Rat) = 1/3 from by
      with_unfolding_all decide]
  · rw [hsim]
    exact realSimEntry_zero_dot (by with_unfolding_all decide)
  · rw [hsim]
    exact realSimEntry_zero_dot (by with_unfolding_all decide)

/-- C3 amended: every successful query on a loaded snapshot whose catalog
isbns are unique returns at most `topN` pairs, every returned predicted
score is at least 0, and the scores are non-increasing in rank order.
No tie-order clause is asserted: the claimed ascending-column order is
refuted by the counterexample, and the program's default sorts leave the
relative order of equal scores unspecified in general (numpy's
default-kind sort is stable only below its insertion-sort threshold), so
only these sort-stability-independent properties hold of every call.
The unique-isbn hypothesis is the spec's ItemRecord unique-key invariant
and is needed for the length bound: duplicate catalog rows with the same
isbn would each be materialized. -/
theorem ranked_output_properties
    {b : List Book} {r : List RatingRow} {u : List UserRow} {snap : Snapshot}
    (hload : loadSnapshot b r u = some snap)
    (hnd : (snap.books.map (fun bk => bk.isbn)).Nodup)
    {simM : Nat → Nat → Rat} {q : String} {k topN : Nat} {pairs : List (Nat × Rat)}
    (hok : getBookRecommendations snap.books snap.ubm simM q k topN = .ok pairs) :
    pairs.length ≤ topN ∧
    (∀ p ∈ pairs, 0 ≤ p.2) ∧
    pairs.Pairwise (fun p pq => pq.2 ≤ p.2) := by
  have hpairs := rec_ok_spec hok
  refine ⟨?_, ?_, ?_⟩
  · rw [hpairs]
    exact le_trans (materialize_length_le _ _ hnd) (topIdxs_length _ _)
  · intro p hp
    rw [hpairs] at hp
    obtain ⟨bk, hbk, hpe, j, hj, hcol⟩ := mem_materialize hp
    have hsub := topIdxs_subset hj
    have hmlen : (queryMasked snap.books snap.ubm simM q k).length
        = snap.ubm.colIds.length := by
      simp only [queryMasked]
      rw [maskScores_length, avgScores_length]
    have hjlt : j < snap.ubm.colIds.length := hmlen ▸ hsub.1
    have hidx : snap.ubm.colIds.indexOf bk.isbn = j := by
      rw [← hcol, List.getD_eq_getElem _ _ hjlt]
      exact List.indexOf_getElem (load_colIds_nodup hload) j hjlt
    rw [hpe]
    show 0 ≤ (queryMasked snap.books snap.ubm simM q k).getD
      (snap.ubm.colIds.indexOf bk.isbn) 0
    rw [hidx]
    exact hsub.2
  · rw [hpairs]
    refine (materialize_pairwise _ _ hnd).imp ?_
    rintro p pq (h1 | ⟨h1, _⟩)
    · exact le_of_lt h1
    · exact le_of_eq h1

/-- Witness for the amended C3 at the tie snapshot and query B0. -/
theorem ranked_output_properties_witness :
    loadSnapshot booksT ratingsT usersT = some snapT ∧
    (snapT.books.map (fun bk => bk.isbn)).Nodup ∧
    getBookRecommendations snapT.books snapT.ubm simFT "B0" 1 10
      = .ok [(3, 3), (2, 3), (6, 0), (5, 0)] ∧
    (([((3 : Nat), (3 : Rat)), (2, 3), (6, 0), (5, 0)] : List (Nat × Rat)).length ≤ 10 ∧
     (∀ p ∈ ([((3 : Nat), (3 : Rat)), (2, 3), (6, 0), (5, 0)] : List (Nat × Rat)), 0 ≤ p.2) ∧
     ([((3 : Nat), (3 : Rat)), (2, 3), (6, 0), (5, 0)] : List (Nat × Rat)).Pairwise
       (fun p pq => pq.2 ≤ p.2)) :=
  ⟨by with_unfolding_all decide, by with_unfolding_all decide, by with_unfolding_all decide,
   @ranked_output_properties booksT ratingsT usersT snapT (by with_unfolding_all decide)
     (by with_unfolding_all decide) simFT "B0" 1 10 [(3, 3), (2, 3), (6, 0), (5, 0)]
     (by with_unfolding_all decide)⟩

end Bookyard
